import Mathlib

/-!
Verification of the booking-availability engine (slot computation) of the
scheduling web application.  Timestamps are modelled as natural numbers
counting minutes since an epoch (one calendar day = 1440 minutes); durations
and offsets are minutes.  The definitions below are shallow embeddings of the
source functions `checkIfIsAvailable`, `getSchedule` and their helpers;
collaborators that are imported from outside the reviewed source
(`getTimeSlots`, `isTimeOutOfBounds`, `getAggregateWorkingHours`,
`getUserAvailability`) are either taken as function parameters (oracles) or
modelled from the specification, as indicated in their doc comments.
-/

namespace CalSchedule

/-- A busy period of a host: the half-open-by-convention interval of an
existing booking (source type `EventBusyDate`). -/
structure EventBusyDate where
  start : Nat
  «end» : Nat
deriving DecidableEq

/-- One already-partially-booked seat-based slot (an element of the source
type `CurrentSeats`): booking start time, booking uid and the attendee count
(`_count.attendees`). -/
structure SeatedBooking where
  startTime : Nat
  uid : String
  attendees : Nat
deriving DecidableEq

/-- The source type `CurrentSeats`: the already-partially-booked slots of a
seat-based event. -/
abbrev CurrentSeats := List SeatedBooking

/-- `currentSeats?.some((booking) => booking.startTime.toISOString() ===
time.toISOString())` : does some current-seats entry start exactly at
`time`?  (`undefined` seats yield `false`.) -/
def seatsMatch (currentSeats : Option CurrentSeats) (time : Nat) : Bool :=
  match currentSeats with
  | some cs => cs.any (fun booking => booking.startTime == time)
  | none => false

/-- Embedding of dayjs `x.isBetween(a, b, null, inclusivity)`.  `incA = true`
renders `'['` (left end included), `incB = true` renders `']'` (right end
included).  Following the dayjs plugin, the comparison also succeeds with the
two bounds swapped (second disjunct). -/
def dayjsIsBetween (x a b : Nat) (incA incB : Bool) : Bool :=
  ((if incA then decide (a ≤ x) else decide (a < x)) &&
   (if incB then decide (x ≤ b) else decide (x < b))) ||
  ((if incA then decide (x ≤ a) else decide (x < a)) &&
   (if incB then decide (b ≤ x) else decide (b < x)))

/-- The body of the `busy.every(...)` callback of `checkIfIsAvailable`:
`true` when the busy interval `busyTime` does not make the candidate slot
`[slotStartTime, slotEndTime]` unavailable.  The sequence of tests mirrors
the source line by line (early accept, then the five `isBetween` tests). -/
def busyIntervalAllows (slotStartTime slotEndTime : Nat) (busyTime : EventBusyDate) : Bool :=
  let startTime := busyTime.start
  let endTime := busyTime.«end»
  if endTime < slotStartTime || startTime > slotEndTime then true
  else if dayjsIsBetween slotStartTime startTime endTime true false then false
  else if dayjsIsBetween slotEndTime startTime endTime false true then false
  else if dayjsIsBetween slotStartTime startTime endTime true false then false
  else if dayjsIsBetween slotEndTime startTime endTime false false then false
  else if dayjsIsBetween startTime slotStartTime slotEndTime false false then false
  else true

/-- Embedding of the source `checkIfIsAvailable`: a slot starting at `time`
of length `eventLength` is available when a current-seats entry starts
exactly at `time`, or when every busy interval passes the overlap tests. -/
def checkIfIsAvailable (time : Nat) (busy : List EventBusyDate) (eventLength : Nat)
    (currentSeats : Option CurrentSeats) : Bool :=
  if seatsMatch currentSeats time then true
  else
    let slotEndTime := time + eventLength
    let slotStartTime := time
    busy.all (fun busyTime => busyIntervalAllows slotStartTime slotEndTime busyTime)

section AvailabilityLemmas

theorem dayjsIsBetween_incExc_iff (x a b : Nat) :
    dayjsIsBetween x a b true false = true ↔ ((a ≤ x ∧ x < b) ∨ (x ≤ a ∧ b < x)) := by
  simp [dayjsIsBetween]

theorem dayjsIsBetween_excInc_iff (x a b : Nat) :
    dayjsIsBetween x a b false true = true ↔ ((a < x ∧ x ≤ b) ∨ (x < a ∧ b ≤ x)) := by
  simp [dayjsIsBetween]

theorem dayjsIsBetween_excExc_iff (x a b : Nat) :
    dayjsIsBetween x a b false false = true ↔ ((a < x ∧ x < b) ∨ (x < a ∧ b < x)) := by
  simp [dayjsIsBetween]

/-- For a well-formed busy interval and a positive duration, the per-interval
test of `checkIfIsAvailable` rejects the slot exactly when the slot window
and the busy interval overlap in the half-open sense. -/
theorem busyIntervalAllows_eq_false_iff (t d : Nat) (b : EventBusyDate)
    (hwf : b.start ≤ b.«end») (hd : 0 < d) :
    busyIntervalAllows t (t + d) b = false ↔ (t < b.«end» ∧ b.start < t + d) := by
  obtain ⟨s, e⟩ := b
  simp only at hwf
  unfold busyIntervalAllows
  simp only
  split_ifs with h1 h2 h3 h4 h5 _h6 <;>
    simp_all only [dayjsIsBetween_incExc_iff, dayjsIsBetween_excInc_iff,
      dayjsIsBetween_excExc_iff, Bool.or_eq_true, decide_eq_true_eq,
      Bool.true_eq_false, false_iff, true_iff,
      not_or, not_and, not_lt, not_le] <;> omega

end AvailabilityLemmas

/-- C1: for every slot start time `t`, event duration `d`, and list of busy
intervals, `checkIfIsAvailable` (with no matching `currentSeats` entry)
returns `false` iff some busy interval `[b.start, b.end)` satisfies
`t < b.end` and `t + d > b.start`; in particular a busy interval ending
exactly at `t`, or starting exactly at `t + d` (back-to-back booking),
leaves the slot available.  (Stated for well-formed busy intervals
`b.start ≤ b.end` and a positive duration; a zero-length event is rejected
upstream.) -/
theorem checkIfIsAvailable_overlap_iff (t d : Nat) (busy : List EventBusyDate)
    (cs : Option CurrentSeats)
    (hseats : seatsMatch cs t = false)
    (hwf : ∀ b ∈ busy, b.start ≤ b.«end») (hd : 0 < d) :
    checkIfIsAvailable t busy d cs = false ↔
      ∃ b ∈ busy, t < b.«end» ∧ b.start < t + d := by
  unfold checkIfIsAvailable
  rw [if_neg (by simp [hseats])]
  show busy.all (fun busyTime => busyIntervalAllows t (t + d) busyTime) = false ↔ _
  constructor
  · intro h
    by_contra hno
    push_neg at hno
    have hall : busy.all (fun busyTime => busyIntervalAllows t (t + d) busyTime) = true := by
      rw [List.all_eq_true]
      intro b hb
      cases hcase : busyIntervalAllows t (t + d) b
      · exfalso
        have hov := (busyIntervalAllows_eq_false_iff t d b (hwf b hb) hd).mp hcase
        have hno2 := hno b hb hov.1
        omega
      · rfl
    rw [h] at hall
    exact Bool.false_ne_true hall
  · rintro ⟨b, hb, hov1, hov2⟩
    cases hall : busy.all (fun busyTime => busyIntervalAllows t (t + d) busyTime)
    · rfl
    · exfalso
      have hbtrue := (List.all_eq_true.mp hall) b hb
      rw [(busyIntervalAllows_eq_false_iff t d b (hwf b hb) hd).mpr ⟨hov1, hov2⟩] at hbtrue
      exact Bool.false_ne_true hbtrue

/-- Witness for C1: against the busy interval `[600, 630)` (10:00 to 10:30)
a 30-minute slot at 630 (back-to-back) is available, and one at 615
(overlapping) is unavailable, both obtained from the overlap
characterization at those concrete inputs. -/
theorem checkIfIsAvailable_overlap_iff_witness :
    checkIfIsAvailable 630 [⟨600, 630⟩] 30 none = true ∧
    checkIfIsAvailable 615 [⟨600, 630⟩] 30 none = false := by
  constructor
  · have h := checkIfIsAvailable_overlap_iff 630 30 [⟨600, 630⟩] none rfl (by decide) (by decide)
    cases hb : checkIfIsAvailable 630 [⟨600, 630⟩] 30 none
    · exact absurd (h.mp hb) (by decide)
    · rfl
  · exact (checkIfIsAvailable_overlap_iff 615 30 [⟨600, 630⟩] none rfl (by decide)
      (by decide)).mpr ⟨⟨600, 630⟩, by decide, by decide, by decide⟩

/-- C3: if `currentSeats` contains an entry whose `startTime` equals the
slot time `t` exactly, then `checkIfIsAvailable` returns `true` regardless
of the busy intervals. -/
theorem checkIfIsAvailable_seats_bypass (t : Nat) (busy : List EventBusyDate)
    (d : Nat) (cs : CurrentSeats)
    (hmatch : ∃ b ∈ cs, b.startTime = t) :
    checkIfIsAvailable t busy d (some cs) = true := by
  have hm : seatsMatch (some cs) t = true := by
    rcases hmatch with ⟨b, hb, hbt⟩
    simp only [seatsMatch, List.any_eq_true]
    exact ⟨b, hb, by simp [hbt]⟩
  simp [checkIfIsAvailable, hm]

/-- Witness for C3: a current-seats entry at time 600 makes the slot at 600
available even though the host is fully busy (busy interval `[540, 1020)`
covers it). -/
theorem checkIfIsAvailable_seats_bypass_witness :
    checkIfIsAvailable 600 [⟨540, 1020⟩] 30 (some [⟨600, "abc", 3⟩]) = true :=
  checkIfIsAvailable_seats_bypass 600 [⟨540, 1020⟩] 30 [⟨600, "abc", 3⟩] (by decide)

/-! ## The `getSchedule` pipeline -/

/-- The scheduling type of an event type (Prisma enum `SchedulingType`). -/
inductive SchedulingType where
  | COLLECTIVE
  | ROUND_ROBIN
deriving DecidableEq

/-- The fields of a user record that the pipeline reads
(`availabilityUserSelect`). -/
structure UserRec where
  id : Nat
  username : Option String
deriving DecidableEq

/-- One entry of an event type's `hosts` relation: a per-host `isFixed` flag
and the host's user record. -/
structure HostEntry where
  isFixed : Bool
  user : UserRec
deriving DecidableEq

/-- The event's period-restriction policy (Prisma enum `PeriodType`). -/
inductive PeriodType where
  | UNLIMITED
  | ROLLING
  | RANGE
deriving DecidableEq

/-- One recurring weekly working-hours window of one host: applicable
weekdays, start/end minute offsets into the day, and the owning user. -/
structure WorkingHours where
  userId : Nat
  days : List Nat
  startTime : Nat
  endTime : Nat
deriving DecidableEq

/-- A busy/available absolute time interval. -/
structure TimeInterval where
  start : Nat
  «end» : Nat
deriving DecidableEq

/-- A date-specific availability override of one host, as returned by the
user-availability collaborator (day index plus the available intervals of
that day). -/
structure DateOverrideRaw where
  date : Nat
  intervals : List TimeInterval
deriving DecidableEq

/-- A date override tagged with its owner, as flattened by `getSchedule`
(`{ userId: availability.user.id, ...override }`). -/
structure DateOverride where
  userId : Nat
  date : Nat
  intervals : List TimeInterval
deriving DecidableEq

/-- The event-type record as selected by `getEventType` (only the fields the
slot pipeline reads).  `hosts` is `none` for dynamic event types, which have
no `hosts` relation. -/
structure EventTypeRec where
  length : Nat
  slotInterval : Option Nat
  minimumBookingNotice : Nat
  beforeEventBuffer : Nat
  afterEventBuffer : Nat
  schedulingType : Option SchedulingType
  hosts : Option (List HostEntry)
  users : List UserRec
  periodType : PeriodType
  periodStartDate : Option Nat
  periodEndDate : Option Nat
  periodCountCalendarDays : Bool
  periodDays : Option Nat
  seatsPerTimeSlot : Option Nat
deriving DecidableEq

/-- A user together with the computed `isFixed` flag (the element type of the
`users` list built at the start of `getSchedule`). -/
structure UserWithFixed where
  isFixed : Bool
  id : Nat
  username : Option String
deriving DecidableEq

/-- Lines 239-246 of the source: every event user is fixed iff the event has
no `schedulingType` or it is `COLLECTIVE`; when the event has a
`schedulingType` and a non-empty `hosts` list, the hosts' own `isFixed`
flags (and user records) are used instead. -/
def computeUsersWithFixed (et : EventTypeRec) : List UserWithFixed :=
  let users := et.users.map (fun u =>
    { isFixed := et.schedulingType.isNone || (et.schedulingType == some SchedulingType.COLLECTIVE),
      id := u.id, username := u.username })
  if et.schedulingType.isSome && ((et.hosts.getD []).length != 0) then
    (et.hosts.getD []).map (fun h => { isFixed := h.isFixed, id := h.user.id, username := h.user.username })
  else users

/-- The result of the external collaborator `getUserAvailability` for one
host: busy intervals, working hours, date overrides, the host's current
seats (for seat-based events) and time zone. -/
structure HostAvailResult where
  busy : List EventBusyDate
  workingHours : List WorkingHours
  dateOverrides : List DateOverrideRaw
  currentSeats : Option CurrentSeats
  timeZone : String
deriving DecidableEq

/-- One element of the `userAvailability` array built by `getSchedule`
(the object returned from the per-user closure: time zone, working hours,
date overrides, busy times and the user; the per-host `currentSeats` is
*not* part of it, it only feeds the outer accumulator). -/
structure HostAvail where
  timeZone : String
  workingHours : List WorkingHours
  dateOverrides : List DateOverrideRaw
  busy : List EventBusyDate
  user : UserWithFixed
deriving DecidableEq

/-- Builds the `userAvailability` entry of one host from the collaborator's
result. -/
def mkHostAvail (u : UserWithFixed) (r : HostAvailResult) : HostAvail :=
  { timeZone := r.timeZone, workingHours := r.workingHours,
    dateOverrides := r.dateOverrides, busy := r.busy, user := u }

/-- The accumulation of line 268 of the source, run once per host in list
order: `if (!currentSeats && _currentSeats) currentSeats = _currentSeats`. -/
def pickCurrentSeats (css : List (Option CurrentSeats)) : Option CurrentSeats :=
  css.foldl (fun acc cs => if acc.isNone && cs.isSome then cs else acc) none

/-- JavaScript `a || b` for a nullable number `a`: `b` when `a` is null or
zero (both falsy), otherwise the value of `a`. -/
def jsOr (a : Option Nat) (b : Nat) : Nat :=
  match a with
  | some n => if n = 0 then b else n
  | none => b

/-- The `frequency` argument of the `getTimeSlots` call (line 318):
`eventType.slotInterval || input.duration || eventType.length`. -/
def slotGenFrequency (et : EventTypeRec) (duration : Option Nat) : Nat :=
  jsOr et.slotInterval (jsOr duration et.length)

/-- The `eventLength` argument of the `getTimeSlots` call (line 314):
`input.duration || eventType.length`. -/
def slotGenEventLength (et : EventTypeRec) (duration : Option Nat) : Nat :=
  jsOr duration et.length

/-- The values taken by `currentCheckedTime` in the day loop of
`getSchedule` (lines 305-309): starting at `startTime`, stepping by one day
(1440 minutes) while strictly before `endTime`. -/
def dayWindows (startTime endTime : Nat) : List Nat :=
  (List.range ((endTime - startTime + 1439) / 1440)).map (fun k => startTime + 1440 * k)

/-- The argument record of one `getTimeSlots` call (lines 312-319). -/
structure GenArgs where
  inviteeDate : Nat
  eventLength : Nat
  workingHours : List WorkingHours
  dateOverrides : List DateOverride
  minimumBookingNotice : Nat
  frequency : Nat
deriving DecidableEq

/-- A candidate slot, as produced by the slot generator and consumed by the
filters (`{time, userIds?}`). -/
structure TimeSlot where
  time : Nat
  userIds : Option (List Nat)
deriving DecidableEq

/-- The slot-generation loop of `getSchedule` (lines 305-321): one
`getTimeSlots` call per day of the requested window, with the event length,
aggregated working hours, flattened date overrides, minimum booking notice
and stepping frequency computed from the event type and the requested
duration.  `gen` abstracts the external `getTimeSlots` collaborator. -/
def generateTimeSlots (gen : GenArgs → List TimeSlot) (et : EventTypeRec)
    (duration : Option Nat) (startTime endTime : Nat)
    (workingHours : List WorkingHours) (dateOverrides : List DateOverride) : List TimeSlot :=
  (dayWindows startTime endTime).flatMap (fun currentCheckedTime =>
    gen { inviteeDate := currentCheckedTime
          eventLength := slotGenEventLength et duration
          workingHours := workingHours
          dateOverrides := dateOverrides
          minimumBookingNotice := et.minimumBookingNotice
          frequency := slotGenFrequency et duration })

/-- The period-restriction configuration handed to the bounds predicate
(lines 290-296). -/
structure PeriodCfg where
  periodType : PeriodType
  periodStartDate : Option Nat
  periodEndDate : Option Nat
  periodCountCalendarDays : Bool
  periodDays : Option Nat
deriving DecidableEq

/-- The period configuration extracted from an event type (lines 290-296). -/
def eventPeriodCfg (et : EventTypeRec) : PeriodCfg :=
  { periodType := et.periodType
    periodStartDate := et.periodStartDate
    periodEndDate := et.periodEndDate
    periodCountCalendarDays := et.periodCountCalendarDays
    periodDays := et.periodDays }

/-- Modelled from the spec: the bounds predicate `isTimeOutOfBounds`
(imported from a library module that is not part of the reviewed source).
Per spec section 4.4: unlimited is never out of bounds; a rolling window is
out of bounds iff the time falls beyond `periodDays` calendar days from now
(the business-days variant sits behind a configuration flag the spec leaves
undetailed and is not modelled); a fixed range is out of bounds iff the time
falls outside `[periodStartDate, periodEndDate]` (a missing bound does not
constrain). -/
def isTimeOutOfBounds (time : Nat) (cfg : PeriodCfg) (now : Nat) : Bool :=
  match cfg.periodType with
  | PeriodType.UNLIMITED => false
  | PeriodType.ROLLING => decide (now + 1440 * cfg.periodDays.getD 0 < time)
  | PeriodType.RANGE =>
      decide ((∃ s, cfg.periodStartDate = some s ∧ time < s) ∨
              (∃ e, cfg.periodEndDate = some e ∧ e < time))

/-- The wrapper defined inside `getSchedule` (lines 289-296):
`isTimeWithinBounds = not isTimeOutOfBounds` on the event's period
configuration. -/
def isTimeWithinBounds (time : Nat) (cfg : PeriodCfg) (now : Nat) : Bool :=
  !isTimeOutOfBounds time cfg now

/-- The filter applied to each candidate user id of a slot in the loose-host
narrowing step (lines 344-356): the id must belong to some loose host's
availability record (`find` in list order) and that host must be available
at the slot's time. -/
def looseUserAvailable (looseHostAvailability : List HostAvail) (eventLength : Nat)
    (currentSeats : Option CurrentSeats) (time uid : Nat) : Bool :=
  match looseHostAvailability.find? (fun a => a.user.id == uid) with
  | none => false
  | some userSchedule => checkIfIsAvailable time userSchedule.busy eventLength currentSeats

/-- The availability-filtering stage of `getSchedule` (lines 323-360): first
a slot survives iff every fixed host reports it available; then, when at
least one loose host exists, each surviving slot's `userIds` is narrowed to
the available loose hosts and slots with no remaining user id are dropped. -/
def availabilityFilter (userAvailability : List HostAvail) (eventLength : Nat)
    (currentSeats : Option CurrentSeats) (timeSlots : List TimeSlot) : List TimeSlot :=
  let availableTimeSlots := timeSlots.filter (fun slot =>
    (userAvailability.filter (fun a => a.user.isFixed)).all (fun schedule =>
      checkIfIsAvailable slot.time schedule.busy eventLength currentSeats))
  let looseHostAvailability := userAvailability.filter (fun a => !a.user.isFixed)
  if looseHostAvailability.length > 0 then
    (availableTimeSlots.map (fun slot =>
        { slot with userIds := slot.userIds.map (fun ids =>
            ids.filter (fun uid =>
              looseUserAvailable looseHostAvailability eventLength currentSeats slot.time uid)) })).filter
      (fun slot => (slot.userIds.getD []).length > 0)
  else availableTimeSlots

/-- One entry of the aggregated response (the object pushed at lines
369-387): loose-filtered user ids pass through the spread, `time` is the
slot's time, `users` the statically derived usernames, and
`attendees`/`bookingUid` are attached when a current-seats entry matches. -/
structure SlotDesc where
  userIds : Option (List Nat)
  time : Nat
  users : List String
  attendees : Option Nat
  bookingUid : Option String
deriving DecidableEq

/-- The `users` list attached to every aggregated slot (line 373):
usernames of the event's declared hosts when a `hosts` relation exists,
otherwise of the event's users (`username || ""`). -/
def staticUsernames (et : EventTypeRec) : List String :=
  let baseUsers : List UserRec :=
    match et.hosts with
    | some hosts => hosts.map (fun host => host.user)
    | none => et.users
  baseUsers.map (fun user => user.username.getD "")

/-- Builds the descriptor pushed for one surviving slot (lines 369-387). -/
def mkSlotDesc (staticUsers : List String) (currentSeats : Option CurrentSeats)
    (slot : TimeSlot) : SlotDesc :=
  if seatsMatch currentSeats slot.time then
    { userIds := slot.userIds, time := slot.time, users := staticUsers
      attendees := ((currentSeats.getD []).find? (fun booking => booking.startTime == slot.time)).map
        (fun booking => booking.attendees)
      bookingUid := ((currentSeats.getD []).find? (fun booking => booking.startTime == slot.time)).map
        (fun booking => booking.uid) }
  else
    { userIds := slot.userIds, time := slot.time, users := staticUsers
      attendees := none, bookingUid := none }

/-- `r[day] = r[day] || []; r[day].push(desc)`: appends a descriptor under
its day key, keeping first-insertion key order. -/
def pushSlot (r : List (Nat × List SlotDesc)) (day : Nat) (desc : SlotDesc) :
    List (Nat × List SlotDesc) :=
  match r with
  | [] => [(day, [desc])]
  | (day0, descs) :: rest =>
      if day0 = day then (day0, descs ++ [desc]) :: rest
      else (day0, descs) :: pushSlot rest day desc

/-- The aggregation `reduce` of `getSchedule` (lines 364-391): surviving
slots grouped by calendar day in generation order. -/
def aggregateSlots (staticUsers : List String) (currentSeats : Option CurrentSeats)
    (slots : List TimeSlot) : List (Nat × List SlotDesc) :=
  slots.foldl (fun r slot => pushSlot r (slot.time / 1440) (mkSlotDesc staticUsers currentSeats slot)) []

/-- Modelled from the spec: the working-hours aggregator
`getAggregateWorkingHours` (imported from a core module that is not part of
the reviewed source).  Per spec section 4.1 it does not itself intersect; it
hands the per-user working hours through. -/
def getAggregateWorkingHours (userAvailability : List HostAvail)
    (_schedulingType : Option SchedulingType) : List WorkingHours :=
  userAvailability.flatMap (fun availability => availability.workingHours)

/-- Stage one of the pipeline: the `users` list with `isFixed` flags and the
per-user availability records (`userAvailability`, lines 239-278), with the
external `getUserAvailability` collaborator abstracted as the oracle `uaO`. -/
def scheduleUserAvailability (et : EventTypeRec) (uaO : UserWithFixed → HostAvailResult) :
    List HostAvail :=
  (computeUsersWithFixed et).map (fun u => mkHostAvail u (uaO u))

/-- The single `currentSeats` value accumulated across the hosts'
availability results (line 268). -/
def scheduleCurrentSeats (et : EventTypeRec) (uaO : UserWithFixed → HostAvailResult) :
    Option CurrentSeats :=
  pickCurrentSeats ((computeUsersWithFixed et).map (fun u => (uaO u).currentSeats))

/-- The flattened, user-tagged date overrides (lines 280-282). -/
def scheduleDateOverrides (et : EventTypeRec) (uaO : UserWithFixed → HostAvailResult) :
    List DateOverride :=
  (scheduleUserAvailability et uaO).flatMap (fun availability =>
    availability.dateOverrides.map (fun override =>
      { userId := availability.user.id, date := override.date, intervals := override.intervals }))

/-- The generated candidate slots of the whole requested window
(lines 303-321). -/
def scheduleTimeSlots (et : EventTypeRec) (duration : Option Nat) (startTime endTime : Nat)
    (gen : GenArgs → List TimeSlot) (uaO : UserWithFixed → HostAvailResult) : List TimeSlot :=
  generateTimeSlots gen et duration startTime endTime
    (getAggregateWorkingHours (scheduleUserAvailability et uaO) et.schedulingType)
    (scheduleDateOverrides et uaO)

/-- The slots surviving the fixed-host and loose-host availability filters
(lines 323-360).  As in the source (line 285), the availability check uses
`eventType.length`, not the requested duration. -/
def scheduleAvailableSlots (et : EventTypeRec) (duration : Option Nat) (startTime endTime : Nat)
    (gen : GenArgs → List TimeSlot) (uaO : UserWithFixed → HostAvailResult) : List TimeSlot :=
  availabilityFilter (scheduleUserAvailability et uaO) et.length (scheduleCurrentSeats et uaO)
    (scheduleTimeSlots et duration startTime endTime gen uaO)

/-- The slots surviving the final bounds filter (line 362). -/
def scheduleBoundedSlots (et : EventTypeRec) (duration : Option Nat) (startTime endTime : Nat)
    (gen : GenArgs → List TimeSlot) (uaO : UserWithFixed → HostAvailResult) (now : Nat) :
    List TimeSlot :=
  (scheduleAvailableSlots et duration startTime endTime gen uaO).filter (fun slot =>
    isTimeWithinBounds slot.time (eventPeriodCfg et) now)

/-- The slot-computation pipeline of `getSchedule` (lines 239-402), from the
`users` list to the aggregated `computedAvailableSlots`. -/
def getScheduleSlots (et : EventTypeRec) (duration : Option Nat) (startTime endTime : Nat)
    (gen : GenArgs → List TimeSlot) (uaO : UserWithFixed → HostAvailResult) (now : Nat) :
    List (Nat × List SlotDesc) :=
  aggregateSlots (staticUsernames et) (scheduleCurrentSeats et uaO)
    (scheduleBoundedSlots et duration startTime endTime gen uaO now)

/-- Modelled from the spec: the per-day slot generator `getTimeSlots`
(imported from a library module that is not part of the reviewed source).
Per spec section 4.2: for the calendar day of `inviteeDate`, each applicable
working-hours window (replaced by the day's date-override intervals when
overrides apply) yields start times beginning at the later of the window's
start and the minimum-notice boundary from `now`, stepping by `frequency`,
while the event still fits before the window's end; each slot carries the
user id owning the window. -/
def specGetTimeSlots (a : GenArgs) (now : Nat) : List TimeSlot :=
  let dayN := a.inviteeDate / 1440
  let dayStart := dayN * 1440
  let overrides := a.dateOverrides.filter (fun o => o.date == dayN)
  let windows : List (Nat × Nat × Nat) :=
    if overrides.length > 0 then
      overrides.flatMap (fun o => o.intervals.map (fun iv => (o.userId, iv.start, iv.«end»)))
    else
      (a.workingHours.filter (fun wh => wh.days.contains (dayN % 7))).map
        (fun wh => (wh.userId, dayStart + wh.startTime, dayStart + wh.endTime))
  windows.flatMap (fun w =>
    let lowerBound := max w.2.1 (now + a.minimumBookingNotice)
    if lowerBound + a.eventLength ≤ w.2.2 then
      (List.range ((w.2.2 - (lowerBound + a.eventLength)) / a.frequency + 1)).map
        (fun i => { time := lowerBound + a.frequency * i, userIds := some [w.1] })
    else [])

/-- The spec-modelled generator as a `getTimeSlots` collaborator at a given
current time. -/
def specGen (now : Nat) : GenArgs → List TimeSlot := fun a => specGetTimeSlots a now

/-! ## Input validation and error handling (`getSchedule` entry) -/

/-- The error codes thrown by `getSchedule` and its event-type resolution. -/
inductive ErrCode where
  | NOT_FOUND
  | BAD_REQUEST
  | UNAUTHORIZED
deriving DecidableEq

/-- The parsed request (`getScheduleSchema`); `startTimeValid`/`endTimeValid`
model whether the two time strings parse to valid instants. -/
structure ScheduleInput where
  startTime : Nat
  endTime : Nat
  startTimeValid : Bool
  endTimeValid : Bool
  eventTypeId : Option Nat
  eventTypeSlug : String
  usernameList : Option (List String)
  duration : Option Nat
deriving DecidableEq

/-- A user row selected by the dynamic-booking lookup
(`allowDynamicBooking` plus `availabilityUserSelect`). -/
structure DynUserRec where
  allowDynamicBooking : Bool
  id : Nat
  username : Option String
deriving DecidableEq

/-- The persistence collaborator: event-type lookup by id, user lookup by
username list (returning only the rows that exist), and the default dynamic
event for a slug (`getDefaultEvent`, an external total helper). -/
structure Db where
  findEventType : Nat → Option EventTypeRec
  findUsersByUsernames : List String → List DynUserRec
  defaultEvent : String → EventTypeRec

/-- `getEventType` (lines 63-122): the Prisma `findUnique` on the event-type
id, `none` when absent. -/
def getEventType (db : Db) (input : ScheduleInput) : Option EventTypeRec :=
  match input.eventTypeId with
  | some i => db.findEventType i
  | none => none

/-- `getDynamicEventType` (lines 124-148): take the default event for the
slug, look the requested usernames up, fail with `UNAUTHORIZED` when some
found user disallows dynamic booking, and otherwise return the default
event carrying the found users. -/
def getDynamicEventType (db : Db) (input : ScheduleInput) : Except ErrCode EventTypeRec :=
  let dynamicEventType := db.defaultEvent input.eventTypeSlug
  let users := db.findUsersByUsernames (input.usernameList.getD [])
  let isDynamicAllowed := !users.any (fun user => !user.allowDynamicBooking)
  if !isDynamicAllowed then Except.error ErrCode.UNAUTHORIZED
  else Except.ok { dynamicEventType with
    users := users.map (fun u => { id := u.id, username := u.username }) }

/-- `getRegularOrDynamicEventType` (lines 150-156): dynamic iff no event-type
id was given. -/
def getRegularOrDynamicEventType (db : Db) (input : ScheduleInput) :
    Except ErrCode (Option EventTypeRec) :=
  let isDynamicBooking := input.eventTypeId.isNone
  if isDynamicBooking then (getDynamicEventType db input).map some
  else Except.ok (getEventType db input)

/-- `getSchedule` (lines 208-403) as a fallible computation: event-type
resolution (throwing `NOT_FOUND` when it yields nothing, lines 216-225),
time-range validation (throwing `BAD_REQUEST`, lines 227-236), then the slot
pipeline.  An error result carries no slots. -/
def getScheduleE (db : Db) (input : ScheduleInput) (gen : GenArgs → List TimeSlot)
    (uaO : UserWithFixed → HostAvailResult) (now : Nat) :
    Except ErrCode (List (Nat × List SlotDesc)) :=
  match getRegularOrDynamicEventType db input with
  | Except.error e => Except.error e
  | Except.ok none => Except.error ErrCode.NOT_FOUND
  | Except.ok (some eventType) =>
      if !(input.startTimeValid && input.endTimeValid) then Except.error ErrCode.BAD_REQUEST
      else
        Except.ok (getScheduleSlots eventType input.duration input.startTime input.endTime gen uaO now)

/-! ## Fixture data used by witnesses and counterexamples -/

/-- A plain single-host event type: 30-minute length, no slot interval, no
scheduling type, no hosts relation, unlimited period. -/
def sampleEvent : EventTypeRec :=
  { length := 30, slotInterval := none, minimumBookingNotice := 0,
    beforeEventBuffer := 0, afterEventBuffer := 0, schedulingType := none,
    hosts := none, users := [{ id := 1, username := some "alice" }],
    periodType := PeriodType.UNLIMITED, periodStartDate := none,
    periodEndDate := none, periodCountCalendarDays := false, periodDays := none,
    seatsPerTimeSlot := none }

/-- `sampleEvent` with an explicit 15-minute slot interval. -/
def sampleEventInterval : EventTypeRec := { sampleEvent with slotInterval := some 15 }

/-- An availability oracle: one free host working 00:00 to 02:00 every day,
no busy intervals, no seats. -/
def freeUaO : UserWithFixed → HostAvailResult := fun _ =>
  { busy := []
    workingHours := [{ userId := 1, days := [0, 1, 2, 3, 4, 5, 6], startTime := 0, endTime := 120 }]
    dateOverrides := []
    currentSeats := none
    timeZone := "UTC" }

/-! ## Theorems about the pipeline stages -/

/-- C10: when the event type has a `schedulingType` and a non-empty hosts
list, the per-host `isFixed` flags from that list are used verbatim;
otherwise every user of the event is treated as a fixed host iff the event
has no `schedulingType` or its `schedulingType` is `COLLECTIVE`. -/
theorem computeUsersWithFixed_spec (et : EventTypeRec) :
    (et.schedulingType.isSome = true → et.hosts.getD [] ≠ [] →
      computeUsersWithFixed et = (et.hosts.getD []).map (fun h =>
        { isFixed := h.isFixed, id := h.user.id, username := h.user.username })) ∧
    (et.schedulingType = none ∨ et.hosts.getD [] = [] →
      computeUsersWithFixed et = et.users.map (fun u =>
        { isFixed := decide (et.schedulingType = none ∨
            et.schedulingType = some SchedulingType.COLLECTIVE),
          id := u.id, username := u.username }) ∧
      ∀ x ∈ computeUsersWithFixed et,
        (x.isFixed = true ↔
          (et.schedulingType = none ∨ et.schedulingType = some SchedulingType.COLLECTIVE))) := by
  have hb : ∀ o : Option SchedulingType,
      (o.isNone || (o == some SchedulingType.COLLECTIVE)) =
        decide (o = none ∨ o = some SchedulingType.COLLECTIVE) := by
    intro o
    rcases o with _ | st
    · decide
    · rcases st <;> decide
  constructor
  · intro h1 h2
    unfold computeUsersWithFixed
    rw [if_pos]
    simp only [Bool.and_eq_true, h1, bne_iff_ne, ne_eq, true_and]
    simpa using h2
  · intro h
    have hcond : ¬ ((et.schedulingType.isSome && ((et.hosts.getD []).length != 0)) = true) := by
      rcases h with h | h <;> simp [h]
    have heq : computeUsersWithFixed et = et.users.map (fun u =>
        { isFixed := decide (et.schedulingType = none ∨
            et.schedulingType = some SchedulingType.COLLECTIVE),
          id := u.id, username := u.username }) := by
      unfold computeUsersWithFixed
      rw [if_neg hcond]
      simp [hb]
    refine ⟨heq, ?_⟩
    intro x hx
    rw [heq] at hx
    rcases List.mem_map.mp hx with ⟨u, _, rfl⟩
    simp

/-- A round-robin team event with an explicit hosts list. -/
def roundRobinEvent : EventTypeRec :=
  { sampleEvent with
      schedulingType := some SchedulingType.ROUND_ROBIN
      hosts := some [{ isFixed := true, user := { id := 7, username := some "dave" } }] }

/-- Witness for C10: a round-robin event with an explicit hosts list uses
the hosts' own `isFixed` flags. -/
theorem computeUsersWithFixed_spec_witness :
    computeUsersWithFixed roundRobinEvent = [{ isFixed := true, id := 7, username := some "dave" }] :=
  (computeUsersWithFixed_spec roundRobinEvent).1 rfl (by decide)

/-- Counterexample for C5: with `slotInterval` unset, a requested duration
of 45 and an event length of 30, the frequency handed to the slot generator
is 45 (the requested duration), not the event length — refuting the claim
that it "otherwise defaults to the event length". -/
theorem slotGenFrequency_counterexample :
    sampleEvent.slotInterval = none ∧ sampleEvent.length = 30 ∧
    slotGenFrequency sampleEvent (some 45) = 45 ∧
    ¬ slotGenFrequency sampleEvent (some 45) = sampleEvent.length ∧
    generateTimeSlots (fun a => [{ time := a.frequency, userIds := none }])
        sampleEvent (some 45) 0 1440 [] [] = [{ time := 45, userIds := none }] := by
  refine ⟨rfl, rfl, rfl, by decide, ?_⟩
  decide

/-- C5 amended: the frequency passed to the slot generator equals the
event's `slotInterval` when set and non-zero; otherwise the requested
duration when provided and non-zero; otherwise the event length — and the
generation loop passes exactly this frequency (and the corresponding
effective event length) to every per-day `getTimeSlots` call. -/
theorem slotGenFrequency_spec (et : EventTypeRec) (duration : Option Nat) :
    (∀ k, et.slotInterval = some k → k ≠ 0 → slotGenFrequency et duration = k) ∧
    ((et.slotInterval = none ∨ et.slotInterval = some 0) →
      ∀ d, duration = some d → d ≠ 0 → slotGenFrequency et duration = d) ∧
    ((et.slotInterval = none ∨ et.slotInterval = some 0) →
      (duration = none ∨ duration = some 0) → slotGenFrequency et duration = et.length) ∧
    (∀ gen startTime endTime workingHours dateOverrides,
      generateTimeSlots gen et duration startTime endTime workingHours dateOverrides =
        (dayWindows startTime endTime).flatMap (fun currentCheckedTime =>
          gen { inviteeDate := currentCheckedTime
                eventLength := slotGenEventLength et duration
                workingHours := workingHours
                dateOverrides := dateOverrides
                minimumBookingNotice := et.minimumBookingNotice
                frequency := slotGenFrequency et duration })) := by
  refine ⟨?_, ?_, ?_, ?_⟩
  · intro k hk hk0
    simp [slotGenFrequency, jsOr, hk, hk0]
  · intro h d hd hd0
    rcases h with h | h <;> simp [slotGenFrequency, jsOr, h, hd, hd0]
  · intro h hd
    rcases h with h | h <;> rcases hd with hd | hd <;> simp [slotGenFrequency, jsOr, h, hd]
  · intro gen startTime endTime workingHours dateOverrides
    rfl

/-- Witness for C5 amended: a 15-minute slot interval wins over a requested
duration of 45. -/
theorem slotGenFrequency_spec_witness :
    sampleEventInterval.slotInterval = some 15 ∧ (15 : Nat) ≠ 0 ∧
    slotGenFrequency sampleEventInterval (some 45) = 15 :=
  ⟨rfl, by decide, (slotGenFrequency_spec sampleEventInterval (some 45)).1 15 rfl (by decide)⟩

/-- The fixed-host conjunction of the availability filter, rephrased over
all of `userAvailability`: the `all` over the filtered fixed hosts holds iff
every fixed host reports the slot available. -/
theorem fixedHosts_all_iff (ua : List HostAvail) (len : Nat)
    (cs : Option CurrentSeats) (t : Nat) :
    ((ua.filter (fun a => a.user.isFixed)).all (fun schedule =>
        checkIfIsAvailable t schedule.busy len cs) = true) ↔
      (∀ a ∈ ua, a.user.isFixed = true → checkIfIsAvailable t a.busy len cs = true) := by
  rw [List.all_eq_true]
  constructor
  · intro h a ha hf
    exact h a (List.mem_filter.mpr ⟨ha, hf⟩)
  · intro h a ha
    have hm := List.mem_filter.mp ha
    exact h a hm.1 hm.2

/-- C2: a generated candidate slot survives availability filtering iff every
fixed host is independently available at it; when the event has at least one
loose host, the surviving slot's `userIds` list is narrowed to exactly the
user ids accepted by the loose-host check (`looseUserAvailable`: the id
belongs to a loose host and that host is independently available), and a
slot whose narrowed `userIds` list is empty is discarded. -/
theorem availabilityFilter_spec (ua : List HostAvail) (len : Nat)
    (cs : Option CurrentSeats) (timeSlots : List TimeSlot) :
    (ua.filter (fun a => !a.user.isFixed) = [] →
      ∀ s : TimeSlot, s ∈ availabilityFilter ua len cs timeSlots ↔
        s ∈ timeSlots ∧
          ∀ a ∈ ua, a.user.isFixed = true → checkIfIsAvailable s.time a.busy len cs = true) ∧
    (ua.filter (fun a => !a.user.isFixed) ≠ [] →
      (∀ s ∈ timeSlots, s.userIds.isSome = true) →
      ∀ s' : TimeSlot, s' ∈ availabilityFilter ua len cs timeSlots ↔
        ∃ s ∈ timeSlots,
          (∀ a ∈ ua, a.user.isFixed = true → checkIfIsAvailable s.time a.busy len cs = true) ∧
          ∃ ids, s.userIds = some ids ∧
            s' = { time := s.time, userIds := some (ids.filter (fun uid =>
                looseUserAvailable (ua.filter (fun a => !a.user.isFixed)) len cs s.time uid)) } ∧
            ids.filter (fun uid =>
                looseUserAvailable (ua.filter (fun a => !a.user.isFixed)) len cs s.time uid) ≠ []) := by
  constructor
  · intro hempty s
    unfold availabilityFilter
    rw [hempty]
    simp only [List.length_nil, gt_iff_lt, lt_self_iff_false, if_false, List.mem_filter]
    rw [fixedHosts_all_iff]
  · intro hne hids s'
    unfold availabilityFilter
    have hlen : ((ua.filter (fun a => !a.user.isFixed)).length > 0) := by
      cases h : ua.filter (fun a => !a.user.isFixed) with
      | nil => exact absurd h hne
      | cons a l => simp [h]
    rw [if_pos hlen]
    constructor
    · intro hmem
      have hmem2 := List.mem_filter.mp hmem
      rcases List.mem_map.mp hmem2.1 with ⟨s, hs, hmap⟩
      have hsts := List.mem_filter.mp hs
      rcases Option.isSome_iff_exists.mp (hids s hsts.1) with ⟨ids, hids_eq⟩
      refine ⟨s, hsts.1, (fixedHosts_all_iff ua len cs s.time).mp hsts.2, ids, hids_eq, ?_, ?_⟩
      · rw [← hmap]
        simp [hids_eq]
      · have hq := hmem2.2
        rw [← hmap] at hq
        simp only [hids_eq] at hq
        intro hnil
        simp [hnil] at hq
    · rintro ⟨s, hs, hfix, ids, hids_eq, rfl, hnonempty⟩
      apply List.mem_filter.mpr
      constructor
      · apply List.mem_map.mpr
        refine ⟨s, List.mem_filter.mpr ⟨hs, (fixedHosts_all_iff ua len cs s.time).mpr hfix⟩, ?_⟩
        simp [hids_eq]
      · simp only [Option.getD_some]
        simpa [List.length_pos] using hnonempty

/-- A fixed host with a free calendar. -/
def fixedFreeHost : HostAvail :=
  { timeZone := "UTC", workingHours := [], dateOverrides := [], busy := [],
    user := { isFixed := true, id := 1, username := some "alice" } }

/-- A loose host with a free calendar. -/
def looseFreeHost : HostAvail :=
  { timeZone := "UTC", workingHours := [], dateOverrides := [], busy := [],
    user := { isFixed := false, id := 11, username := some "bob" } }

/-- A loose host busy from 09:00 to 17:00 of day zero. -/
def looseBusyHost : HostAvail :=
  { timeZone := "UTC", workingHours := [], dateOverrides := [], busy := [⟨540, 1020⟩],
    user := { isFixed := false, id := 12, username := some "carol" } }

/-- One fixed and two loose hosts. -/
def mixedUa : List HostAvail := [fixedFreeHost, looseFreeHost, looseBusyHost]

/-- Witness for C2: with a free fixed host and two loose hosts of which only
one is free at 600, the candidate slot at 600 survives with its user ids
narrowed to the free loose host. -/
theorem availabilityFilter_spec_witness :
    ({ time := 600, userIds := some [11] } : TimeSlot) ∈
      availabilityFilter mixedUa 30 none [{ time := 600, userIds := some [11, 12] }] :=
  ((availabilityFilter_spec mixedUa 30 none
      [{ time := 600, userIds := some [11, 12] }]).2 (by decide) (by decide)
    { time := 600, userIds := some [11] }).mpr
    ⟨{ time := 600, userIds := some [11, 12] }, by decide, by decide,
      [11, 12], rfl, by decide, by decide⟩

/-! ## Aggregation lemmas -/

/-- `pushSlot` only adds the pushed descriptor: any descriptor found in the
result was already present or is the pushed one. -/
theorem mem_of_mem_pushSlot (r : List (Nat × List SlotDesc)) (day : Nat) (desc : SlotDesc) :
    ∀ (p : Nat × List SlotDesc) (d : SlotDesc), p ∈ pushSlot r day desc → d ∈ p.2 →
      (∃ q ∈ r, d ∈ q.2) ∨ d = desc := by
  induction r with
  | nil =>
      intro p d hp hd
      simp only [pushSlot, List.mem_singleton] at hp
      subst hp
      simp only [List.mem_singleton] at hd
      exact Or.inr hd
  | cons hd0 tl ih =>
      intro p d hp hd
      obtain ⟨day0, descs⟩ := hd0
      simp only [pushSlot] at hp
      by_cases hday : day0 = day
      · rw [if_pos hday] at hp
        rcases List.mem_cons.mp hp with hp | hp
        · subst hp
          simp only [List.mem_append, List.mem_singleton] at hd
          rcases hd with hd | hd
          · exact Or.inl ⟨(day0, descs), List.mem_cons_self _ _, hd⟩
          · exact Or.inr hd
        · exact Or.inl ⟨p, List.mem_cons_of_mem _ hp, hd⟩
      · rw [if_neg hday] at hp
        rcases List.mem_cons.mp hp with hp | hp
        · subst hp
          exact Or.inl ⟨(day0, descs), List.mem_cons_self _ _, hd⟩
        · rcases ih p d hp hd with ⟨q, hq, hdq⟩ | h
          · exact Or.inl ⟨q, List.mem_cons_of_mem _ hq, hdq⟩
          · exact Or.inr h

/-- Every descriptor in the aggregated output of a slot list comes from one
of the slots (fold-invariant form). -/
theorem mem_of_mem_foldl_pushSlot (staticUsers : List String) (cs : Option CurrentSeats)
    (slots : List TimeSlot) :
    ∀ (r : List (Nat × List SlotDesc)) (p : Nat × List SlotDesc) (d : SlotDesc),
      p ∈ slots.foldl (fun r slot =>
          pushSlot r (slot.time / 1440) (mkSlotDesc staticUsers cs slot)) r →
      d ∈ p.2 →
      (∃ q ∈ r, d ∈ q.2) ∨ ∃ s ∈ slots, d = mkSlotDesc staticUsers cs s := by
  induction slots with
  | nil =>
      intro r p d hp hd
      exact Or.inl ⟨p, hp, hd⟩
  | cons s tl ih =>
      intro r p d hp hd
      have := ih (pushSlot r (s.time / 1440) (mkSlotDesc staticUsers cs s)) p d hp hd
      rcases this with ⟨q, hq, hdq⟩ | ⟨s0, hs0, hds0⟩
      · rcases mem_of_mem_pushSlot r (s.time / 1440) (mkSlotDesc staticUsers cs s) q d hq hdq with
          h | h
        · exact Or.inl h
        · exact Or.inr ⟨s, List.mem_cons_self _ _, h⟩
      · exact Or.inr ⟨s0, List.mem_cons_of_mem _ hs0, hds0⟩

/-- Every descriptor in `aggregateSlots` is the descriptor of one of the
aggregated slots. -/
theorem mem_aggregateSlots (staticUsers : List String) (cs : Option CurrentSeats)
    (slots : List TimeSlot) (p : Nat × List SlotDesc) (d : SlotDesc)
    (hp : p ∈ aggregateSlots staticUsers cs slots) (hd : d ∈ p.2) :
    ∃ s ∈ slots, d = mkSlotDesc staticUsers cs s := by
  rcases mem_of_mem_foldl_pushSlot staticUsers cs slots [] p d hp hd with ⟨q, hq, _⟩ | h
  · exact absurd hq (List.not_mem_nil q)
  · exact h

/-- `mkSlotDesc` keeps the slot's time. -/
theorem mkSlotDesc_time (staticUsers : List String) (cs : Option CurrentSeats)
    (slot : TimeSlot) : (mkSlotDesc staticUsers cs slot).time = slot.time := by
  unfold mkSlotDesc
  split <;> rfl

/-- `mkSlotDesc` attaches exactly the statically derived users list. -/
theorem mkSlotDesc_users (staticUsers : List String) (cs : Option CurrentSeats)
    (slot : TimeSlot) : (mkSlotDesc staticUsers cs slot).users = staticUsers := by
  unfold mkSlotDesc
  split <;> rfl

/-- The availability filter only narrows: every surviving slot's time is the
time of one of the incoming candidate slots. -/
theorem availabilityFilter_time_subset (ua : List HostAvail) (len : Nat)
    (cs : Option CurrentSeats) (timeSlots : List TimeSlot) (s' : TimeSlot)
    (hmem : s' ∈ availabilityFilter ua len cs timeSlots) :
    ∃ s ∈ timeSlots, s'.time = s.time := by
  unfold availabilityFilter at hmem
  by_cases hlen : ((ua.filter (fun a => !a.user.isFixed)).length > 0)
  · rw [if_pos hlen] at hmem
    have hmem2 := (List.mem_filter.mp hmem).1
    rcases List.mem_map.mp hmem2 with ⟨s, hs, hmap⟩
    refine ⟨s, (List.mem_filter.mp hs).1, ?_⟩
    rw [← hmap]
  · rw [if_neg hlen] at hmem
    exact ⟨s', (List.mem_filter.mp hmem).1, rfl⟩

/-- C6: the period-bounds predicate is the last filtering step: a slot is in
the bounds-filtered stage iff it survived the availability filters and is
within bounds (so no slot rejected there is reinstated), every aggregated
output descriptor satisfies the bounds predicate, and the predicate follows
the event's `periodType` (unlimited always true; rolling window and fixed
range per the period configuration). -/
theorem boundsFilter_spec (et : EventTypeRec) (duration : Option Nat) (startTime endTime : Nat)
    (gen : GenArgs → List TimeSlot) (uaO : UserWithFixed → HostAvailResult) (now : Nat) :
    (∀ s : TimeSlot, s ∈ scheduleBoundedSlots et duration startTime endTime gen uaO now ↔
      s ∈ scheduleAvailableSlots et duration startTime endTime gen uaO ∧
        isTimeWithinBounds s.time (eventPeriodCfg et) now = true) ∧
    (∀ p ∈ getScheduleSlots et duration startTime endTime gen uaO now,
      ∀ d ∈ p.2, isTimeWithinBounds d.time (eventPeriodCfg et) now = true) ∧
    (∀ (t : Nat) (cfg : PeriodCfg) (n : Nat), cfg.periodType = PeriodType.UNLIMITED →
      isTimeWithinBounds t cfg n = true) ∧
    (∀ (t : Nat) (cfg : PeriodCfg) (n : Nat), cfg.periodType = PeriodType.ROLLING →
      (isTimeWithinBounds t cfg n = true ↔ t ≤ n + 1440 * cfg.periodDays.getD 0)) ∧
    (∀ (t : Nat) (cfg : PeriodCfg) (n : Nat), cfg.periodType = PeriodType.RANGE →
      (isTimeWithinBounds t cfg n = true ↔
        ((∀ s, cfg.periodStartDate = some s → s ≤ t) ∧
         (∀ e, cfg.periodEndDate = some e → t ≤ e)))) := by
  refine ⟨?_, ?_, ?_, ?_, ?_⟩
  · intro s
    unfold scheduleBoundedSlots
    exact List.mem_filter
  · intro p hp d hd
    rcases mem_aggregateSlots _ _ _ p d hp hd with ⟨s, hs, rfl⟩
    rw [mkSlotDesc_time]
    exact (List.mem_filter.mp hs).2
  · intro t cfg n h
    simp [isTimeWithinBounds, isTimeOutOfBounds, h]
  · intro t cfg n h
    simp only [isTimeWithinBounds, isTimeOutOfBounds, h, Bool.not_eq_true',
      decide_eq_false_iff_not, not_lt]
  · intro t cfg n h
    simp only [isTimeWithinBounds, isTimeOutOfBounds, h, Bool.not_eq_true',
      decide_eq_false_iff_not, not_or, not_exists, not_and, not_lt]

/-- The aggregated descriptors of the concrete single-host run over the
window `[0, 60)` with working hours 00:00 to 02:00. -/
def sampleDescs : List SlotDesc :=
  [{ userIds := some [1], time := 0, users := ["alice"], attendees := none, bookingUid := none },
   { userIds := some [1], time := 30, users := ["alice"], attendees := none, bookingUid := none },
   { userIds := some [1], time := 60, users := ["alice"], attendees := none, bookingUid := none },
   { userIds := some [1], time := 90, users := ["alice"], attendees := none, bookingUid := none }]

/-- Witness for C6: in a concrete single-host run with an unlimited period,
an aggregated descriptor is within bounds. -/
theorem boundsFilter_spec_witness :
    isTimeWithinBounds 30 (eventPeriodCfg sampleEvent) 0 = true :=
  (boundsFilter_spec sampleEvent none 0 60 (specGen 0) freeUaO 0).2.1
    (0, sampleDescs) (by decide)
    { userIds := some [1], time := 30, users := ["alice"], attendees := none, bookingUid := none }
    (by decide)

/-- C8: every emitted slot descriptor's `users` list is derived from the
event's statically declared hosts (or its users list when no hosts are
declared), not from the slot's loose-filtered `userIds`; consequently every
descriptor of one request carries the same `users` list. -/
theorem aggregatedUsers_static (et : EventTypeRec) (duration : Option Nat)
    (startTime endTime : Nat) (gen : GenArgs → List TimeSlot)
    (uaO : UserWithFixed → HostAvailResult) (now : Nat) :
    (∀ p ∈ getScheduleSlots et duration startTime endTime gen uaO now,
      ∀ d ∈ p.2, d.users = staticUsernames et) ∧
    (∀ p1 ∈ getScheduleSlots et duration startTime endTime gen uaO now,
      ∀ p2 ∈ getScheduleSlots et duration startTime endTime gen uaO now,
        ∀ d1 ∈ p1.2, ∀ d2 ∈ p2.2, d1.users = d2.users) := by
  have h1 : ∀ p ∈ getScheduleSlots et duration startTime endTime gen uaO now,
      ∀ d ∈ p.2, d.users = staticUsernames et := by
    intro p hp d hd
    rcases mem_aggregateSlots _ _ _ p d hp hd with ⟨s, _, rfl⟩
    exact mkSlotDesc_users _ _ _
  refine ⟨h1, ?_⟩
  intro p1 hp1 p2 hp2 d1 hd1 d2 hd2
  rw [h1 p1 hp1 d1 hd1, h1 p2 hp2 d2 hd2]

/-- Witness for C8: in a concrete run a descriptor's users list equals the
statically derived usernames. -/
theorem aggregatedUsers_static_witness :
    ["alice"] = staticUsernames sampleEvent :=
  (aggregatedUsers_static sampleEvent none 0 60 (specGen 0) freeUaO 0).1
    (0, sampleDescs) (by decide)
    { userIds := some [1], time := 30, users := ["alice"], attendees := none, bookingUid := none }
    (by decide)

/-- The seats accumulator never replaces a value it already holds: it keeps
the first non-null per-host `currentSeats` in fold order. -/
theorem pickCurrentSeats_eq_findSome (css : List (Option CurrentSeats)) :
    pickCurrentSeats css = css.findSome? (fun x => x) := by
  have hsome : ∀ (l : List (Option CurrentSeats)) (v : CurrentSeats),
      l.foldl (fun acc cs => if acc.isNone && cs.isSome then cs else acc) (some v) = some v := by
    intro l
    induction l with
    | nil => intro v; rfl
    | cons x xs ih =>
        intro v
        rw [List.foldl_cons]
        have hstep : (if (some v : Option CurrentSeats).isNone && x.isSome then x else some v) =
            some v := by simp
        rw [hstep, ih]
  induction css with
  | nil => rfl
  | cons x xs ih =>
      unfold pickCurrentSeats
      rw [List.foldl_cons]
      cases x with
      | some w =>
          have hstep : (if (none : Option CurrentSeats).isNone && (some w).isSome
              then some w else none) = some w := by simp
          rw [hstep, hsome]
          simp [List.findSome?]
      | none =>
          have hstep : (if (none : Option CurrentSeats).isNone && (none : Option CurrentSeats).isSome
              then (none : Option CurrentSeats) else none) = none := by simp
          rw [hstep]
          unfold pickCurrentSeats at ih
          rw [ih]
          simp [List.findSome?]

/-- C9: the pipeline keeps only the first per-host `currentSeats` value (in
host-list order): the accumulator picks the first non-null value and never
overwrites it, and the whole pipeline output depends on the hosts' seats
results only through that single picked value (which therefore feeds both
every seat-bypass availability check and every aggregated annotation). -/
theorem currentSeats_single_source :
    (∀ css : List (Option CurrentSeats), pickCurrentSeats css = css.findSome? (fun x => x)) ∧
    (∀ (pre post : List (Option CurrentSeats)) (s : CurrentSeats),
      (∀ x ∈ pre, x = none) → pickCurrentSeats (pre ++ some s :: post) = some s) ∧
    (∀ (et : EventTypeRec) (duration : Option Nat) (startTime endTime : Nat)
        (gen : GenArgs → List TimeSlot) (now : Nat)
        (uaO uaO' : UserWithFixed → HostAvailResult),
      (∀ u, { uaO u with currentSeats := none } = { uaO' u with currentSeats := none }) →
      scheduleCurrentSeats et uaO = scheduleCurrentSeats et uaO' →
      getScheduleSlots et duration startTime endTime gen uaO now =
        getScheduleSlots et duration startTime endTime gen uaO' now) := by
  refine ⟨pickCurrentSeats_eq_findSome, ?_, ?_⟩
  · intro pre post s hpre
    rw [pickCurrentSeats_eq_findSome]
    induction pre with
    | nil => simp [List.findSome?]
    | cons x xs ih =>
        have hx : x = none := hpre x (List.mem_cons_self _ _)
        subst hx
        rw [List.cons_append, List.findSome?_cons]
        exact ih (fun y hy => hpre y (List.mem_cons_of_mem _ hy))
  · intro et duration startTime endTime gen now uaO uaO' hfields hseats
    have hua : scheduleUserAvailability et uaO = scheduleUserAvailability et uaO' := by
      unfold scheduleUserAvailability
      apply List.map_congr_left
      intro u _
      have h1 : (uaO u).busy = (uaO' u).busy := by
        have h := congrArg HostAvailResult.busy (hfields u)
        simpa using h
      have h2 : (uaO u).workingHours = (uaO' u).workingHours := by
        have h := congrArg HostAvailResult.workingHours (hfields u)
        simpa using h
      have h3 : (uaO u).dateOverrides = (uaO' u).dateOverrides := by
        have h := congrArg HostAvailResult.dateOverrides (hfields u)
        simpa using h
      have h4 : (uaO u).timeZone = (uaO' u).timeZone := by
        have h := congrArg HostAvailResult.timeZone (hfields u)
        simpa using h
      unfold mkHostAvail
      rw [h1, h2, h3, h4]
    unfold getScheduleSlots scheduleBoundedSlots scheduleAvailableSlots scheduleTimeSlots
      scheduleDateOverrides
    rw [hua, hseats]

/-- An event like `sampleEvent` but with two users. -/
def twoUserEvent : EventTypeRec :=
  { sampleEvent with users := [{ id := 1, username := some "alice" },
                               { id := 2, username := some "bob" }] }

/-- An oracle where host 1 returns seats at 600 and any other host returns
seats at 630. -/
def uaOSeatsBoth : UserWithFixed → HostAvailResult := fun u =>
  { busy := []
    workingHours := []
    dateOverrides := []
    currentSeats := if u.id = 1 then some [⟨600, "uidA", 2⟩] else some [⟨630, "uidB", 1⟩]
    timeZone := "UTC" }

/-- Like `uaOSeatsBoth`, but hosts other than host 1 return no seats. -/
def uaOSeatsFirst : UserWithFixed → HostAvailResult := fun u =>
  { busy := []
    workingHours := []
    dateOverrides := []
    currentSeats := if u.id = 1 then some [⟨600, "uidA", 2⟩] else none
    timeZone := "UTC" }

/-- Witness for C9: replacing the second host's seats result with nothing
leaves the whole pipeline output unchanged, because only the first host's
value is kept. -/
theorem currentSeats_single_source_witness :
    getScheduleSlots twoUserEvent none 0 60 (specGen 0) uaOSeatsBoth 0 =
      getScheduleSlots twoUserEvent none 0 60 (specGen 0) uaOSeatsFirst 0 :=
  currentSeats_single_source.2.2 twoUserEvent none 0 60 (specGen 0) 0
    uaOSeatsBoth uaOSeatsFirst (fun _ => rfl) (by decide)

/-! ## Range of the generated and emitted slots -/

/-- Characterization of the day loop values. -/
theorem mem_dayWindows (s e t : Nat) :
    t ∈ dayWindows s e ↔ ∃ k, k < (e - s + 1439) / 1440 ∧ s + 1440 * k = t := by
  simp [dayWindows]

/-- Every iterated day starts strictly before the requested end. -/
theorem dayWindows_lt (s e t : Nat) (h : t ∈ dayWindows s e) : t < e := by
  rcases (mem_dayWindows s e t).mp h with ⟨k, hk, rfl⟩
  omega

/-- Slots produced by the spec-modelled generator stay within the calendar
day of `inviteeDate` (given working-hours offsets within the day and
override intervals within their day), including room for the event
length. -/
theorem specGetTimeSlots_bounds (a : GenArgs) (now : Nat)
    (hwh : ∀ wh ∈ a.workingHours, wh.endTime ≤ 1440)
    (hov : ∀ o ∈ a.dateOverrides, ∀ iv ∈ o.intervals,
      o.date * 1440 ≤ iv.start ∧ iv.«end» ≤ (o.date + 1) * 1440) :
    ∀ s ∈ specGetTimeSlots a now,
      (a.inviteeDate / 1440) * 1440 ≤ s.time ∧
      s.time + a.eventLength ≤ (a.inviteeDate / 1440) * 1440 + 1440 := by
  intro s hs
  unfold specGetTimeSlots at hs
  simp only [List.mem_flatMap] at hs
  obtain ⟨w, hw, hsw⟩ := hs
  have hwbound : (a.inviteeDate / 1440) * 1440 ≤ w.2.1 ∧
      w.2.2 ≤ (a.inviteeDate / 1440) * 1440 + 1440 := by
    by_cases hov0 :
        ((a.dateOverrides.filter (fun o => o.date == a.inviteeDate / 1440)).length > 0)
    · rw [if_pos hov0] at hw
      simp only [List.mem_flatMap, List.mem_map, List.mem_filter] at hw
      obtain ⟨o, ⟨ho, hdate⟩, iv, hiv, rfl⟩ := hw
      have hdate2 : o.date = a.inviteeDate / 1440 := by simpa using hdate
      have hb := hov o ho iv hiv
      simp only []
      omega
    · rw [if_neg hov0] at hw
      simp only [List.mem_map, List.mem_filter] at hw
      obtain ⟨wh, ⟨_, _⟩, rfl⟩ := hw
      have hb := hwh wh (by assumption)
      simp only []
      omega
  by_cases hfit : max w.2.1 (now + a.minimumBookingNotice) + a.eventLength ≤ w.2.2
  · rw [if_pos hfit] at hsw
    simp only [List.mem_map, List.mem_range] at hsw
    obtain ⟨i, hi, rfl⟩ := hsw
    have hi2 : i ≤ (w.2.2 - (max w.2.1 (now + a.minimumBookingNotice) + a.eventLength)) /
        a.frequency := Nat.lt_succ_iff.mp hi
    have hprod : a.frequency * i ≤
        w.2.2 - (max w.2.1 (now + a.minimumBookingNotice) + a.eventLength) :=
      le_trans (Nat.mul_le_mul_left _ hi2) (Nat.mul_div_le _ _)
    have hlb1 : w.2.1 ≤ max w.2.1 (now + a.minimumBookingNotice) := le_max_left _ _
    simp only []
    generalize a.frequency * i = step at hprod
    omega
  · rw [if_neg hfit] at hsw
    simp at hsw

/-- C4 amended: every emitted slot's time lies within the iterated calendar
days: at or after the start of `startTime`'s day and strictly before
`endTime + 1440` (one day past the requested end).  The first day may yield
slots before `startTime` and the final partially-covered day slots at or
past `endTime`; the generator is handed only the day, never the window
ends.  (Hypotheses: working-hours offsets lie within a day and override
intervals lie within their day.) -/
theorem getScheduleSlots_day_bounds (et : EventTypeRec) (duration : Option Nat)
    (startTime endTime : Nat) (uaO : UserWithFixed → HostAvailResult) (now : Nat)
    (hwh : ∀ u : UserWithFixed, ∀ wh ∈ (uaO u).workingHours, wh.endTime ≤ 1440)
    (hov : ∀ u : UserWithFixed, ∀ o ∈ (uaO u).dateOverrides, ∀ iv ∈ o.intervals,
      o.date * 1440 ≤ iv.start ∧ iv.«end» ≤ (o.date + 1) * 1440) :
    ∀ p ∈ getScheduleSlots et duration startTime endTime
        (fun a => specGetTimeSlots a now) uaO now,
      ∀ d ∈ p.2, (startTime / 1440) * 1440 ≤ d.time ∧ d.time < endTime + 1440 := by
  intro p hp d hd
  rcases mem_aggregateSlots _ _ _ p d hp hd with ⟨s, hs, rfl⟩
  rw [mkSlotDesc_time]
  have hs2 := (List.mem_filter.mp hs).1
  rcases availabilityFilter_time_subset _ _ _ _ s hs2 with ⟨s0, hs0, htime⟩
  rw [htime]
  unfold scheduleTimeSlots generateTimeSlots at hs0
  simp only [List.mem_flatMap] at hs0
  obtain ⟨day, hday, hslot⟩ := hs0
  have hwh2 : ∀ wh ∈ getAggregateWorkingHours (scheduleUserAvailability et uaO)
      et.schedulingType, wh.endTime ≤ 1440 := by
    intro wh hwhm
    unfold getAggregateWorkingHours scheduleUserAvailability at hwhm
    simp only [List.mem_flatMap, List.mem_map] at hwhm
    obtain ⟨_, ⟨u, _, rfl⟩, hwm⟩ := hwhm
    exact hwh u wh hwm
  have hov2 : ∀ o ∈ scheduleDateOverrides et uaO, ∀ iv ∈ o.intervals,
      o.date * 1440 ≤ iv.start ∧ iv.«end» ≤ (o.date + 1) * 1440 := by
    intro o hom iv hiv
    unfold scheduleDateOverrides scheduleUserAvailability at hom
    simp only [List.mem_flatMap, List.mem_map] at hom
    obtain ⟨_, ⟨u, _, rfl⟩, o0, ho0, rfl⟩ := hom
    exact hov u o0 ho0 iv hiv
  have hb := specGetTimeSlots_bounds _ now hwh2 hov2 s0 hslot
  simp only [] at hb
  have hdaylt : day < endTime := dayWindows_lt startTime endTime day hday
  rcases (mem_dayWindows startTime endTime day).mp hday with ⟨k, _, rfl⟩
  omega

/-- Counterexample for C4: with working hours 00:00 to 02:00 and a
30-minute event, requesting the window `[0, 60)` emits a slot at 90 (past
the requested end, on the partially-covered day), and requesting
`[30, 120)` emits a slot at 0 (before the requested start). -/
theorem getScheduleSlots_range_counterexample :
    getScheduleSlots sampleEvent none 0 60 (specGen 0) freeUaO 0 = [(0, sampleDescs)] ∧
    ({ userIds := some [1], time := 90, users := ["alice"], attendees := none,
       bookingUid := none } : SlotDesc) ∈ sampleDescs ∧
    ¬ (90 : Nat) < 60 ∧
    getScheduleSlots sampleEvent none 30 120 (specGen 0) freeUaO 0 = [(0, sampleDescs)] ∧
    ({ userIds := some [1], time := 0, users := ["alice"], attendees := none,
       bookingUid := none } : SlotDesc) ∈ sampleDescs ∧
    (0 : Nat) < 30 := by
  decide

/-- Witness for C4 amended: the concrete run of the counterexample stays
within the day bounds at the slot emitted past the requested end. -/
theorem getScheduleSlots_day_bounds_witness :
    (0 / 1440) * 1440 ≤ 90 ∧ (90 : Nat) < 60 + 1440 :=
  getScheduleSlots_day_bounds sampleEvent none 0 60 freeUaO 0
    (fun _ => by
      intro wh hwh
      simp only [freeUaO, List.mem_singleton] at hwh
      subst hwh
      decide)
    (fun _ => by
      intro o ho
      simp [freeUaO] at ho)
    (0, sampleDescs) (by decide)
    { userIds := some [1], time := 90, users := ["alice"], attendees := none, bookingUid := none }
    (by decide)

/-! ## Error behaviour of the `getSchedule` entry -/

/-- The event-type resolution for a dynamic booking either rejects with
`UNAUTHORIZED` or yields an event type — never nothing. -/
theorem getRegularOrDynamicEventType_dynamic (db : Db) (input : ScheduleInput)
    (heid : input.eventTypeId = none) :
    getRegularOrDynamicEventType db input = Except.error ErrCode.UNAUTHORIZED ∨
    ∃ et0, getRegularOrDynamicEventType db input = Except.ok (some et0) := by
  unfold getRegularOrDynamicEventType getDynamicEventType
  rw [heid]
  simp only [Option.isNone_none, if_true]
  by_cases h : ((db.findUsersByUsernames (input.usernameList.getD [])).any
      (fun user => !user.allowDynamicBooking)) = true
  · left
    simp [h, Except.map]
  · right
    rw [Bool.not_eq_true] at h
    refine ⟨{ db.defaultEvent input.eventTypeSlug with
        users := (db.findUsersByUsernames (input.usernameList.getD [])).map
          (fun u => { id := u.id, username := u.username }) }, ?_⟩
    simp [h, Except.map]

/-- The event-type resolution for a regular booking is the plain lookup. -/
theorem getRegularOrDynamicEventType_regular (db : Db) (input : ScheduleInput) (i : Nat)
    (heid : input.eventTypeId = some i) :
    getRegularOrDynamicEventType db input = Except.ok (db.findEventType i) := by
  unfold getRegularOrDynamicEventType getEventType
  rw [heid]
  simp

/-- C7 amended: `getScheduleE` fails with `NOT_FOUND` iff the request names
an event-type id whose lookup yields nothing; a dynamic booking (no
event-type id) never produces `NOT_FOUND`, even when every requested user
is absent.  A malformed time range on a resolved event type yields
`BAD_REQUEST`, and a successful result is the full slot pipeline output
computed after all validations passed (no partial results). -/
theorem getScheduleE_notFound_iff (db : Db) (input : ScheduleInput)
    (gen : GenArgs → List TimeSlot) (uaO : UserWithFixed → HostAvailResult) (now : Nat) :
    (getScheduleE db input gen uaO now = Except.error ErrCode.NOT_FOUND ↔
      ∃ i, input.eventTypeId = some i ∧ db.findEventType i = none) ∧
    (∀ i et0, input.eventTypeId = some i → db.findEventType i = some et0 →
      (input.startTimeValid && input.endTimeValid) = false →
      getScheduleE db input gen uaO now = Except.error ErrCode.BAD_REQUEST) ∧
    (∀ slots, getScheduleE db input gen uaO now = Except.ok slots →
      input.startTimeValid = true ∧ input.endTimeValid = true ∧
      ∃ et0, slots =
        getScheduleSlots et0 input.duration input.startTime input.endTime gen uaO now) := by
  cases heid : input.eventTypeId with
  | none =>
      rcases getRegularOrDynamicEventType_dynamic db input heid with hres | ⟨et0, hres⟩
      · refine ⟨⟨?_, ?_⟩, ?_, ?_⟩
        · intro h
          unfold getScheduleE at h
          rw [hres] at h
          simp at h
        · rintro ⟨j, hj, _⟩
          exact absurd hj (by simp)
        · intro j et1 hj
          exact absurd hj (by simp)
        · intro slots hok
          unfold getScheduleE at hok
          rw [hres] at hok
          simp at hok
      · refine ⟨⟨?_, ?_⟩, ?_, ?_⟩
        · intro h
          unfold getScheduleE at h
          rw [hres] at h
          by_cases hvalid : (input.startTimeValid && input.endTimeValid) = true
          · simp [hvalid] at h
          · rw [Bool.not_eq_true] at hvalid
            simp [hvalid] at h
        · rintro ⟨j, hj, _⟩
          exact absurd hj (by simp)
        · intro j et1 hj
          exact absurd hj (by simp)
        · intro slots hok
          unfold getScheduleE at hok
          rw [hres] at hok
          by_cases hvalid : (input.startTimeValid && input.endTimeValid) = true
          · have hv1 : input.startTimeValid = true ∧ input.endTimeValid = true := by
              simpa using hvalid
            simp only [hvalid, Bool.not_true, Bool.false_eq_true, if_false] at hok
            refine ⟨hv1.1, hv1.2, et0, ?_⟩
            exact (by simpa using hok : _ = slots).symm
          · rw [Bool.not_eq_true] at hvalid
            simp [hvalid] at hok
  | some i =>
      have hres := getRegularOrDynamicEventType_regular db input i heid
      cases hfind : db.findEventType i with
      | none =>
          refine ⟨⟨?_, ?_⟩, ?_, ?_⟩
          · intro _
            exact ⟨i, rfl, hfind⟩
          · intro _
            unfold getScheduleE
            rw [hres, hfind]
          · intro j et1 hj hfindj
            injection hj with hj
            subst hj
            rw [hfind] at hfindj
            exact absurd hfindj (by simp)
          · intro slots hok
            unfold getScheduleE at hok
            rw [hres, hfind] at hok
            simp at hok
      | some et0 =>
          refine ⟨⟨?_, ?_⟩, ?_, ?_⟩
          · intro h
            unfold getScheduleE at h
            rw [hres, hfind] at h
            by_cases hvalid : (input.startTimeValid && input.endTimeValid) = true
            · simp [hvalid] at h
            · rw [Bool.not_eq_true] at hvalid
              simp [hvalid] at h
          · rintro ⟨j, hj, hfindj⟩
            injection hj with hj
            subst hj
            rw [hfind] at hfindj
            exact absurd hfindj (by simp)
          · intro j et1 hj hfindj hvalid
            unfold getScheduleE
            rw [hres, hfind]
            simp [hvalid]
          · intro slots hok
            unfold getScheduleE at hok
            rw [hres, hfind] at hok
            by_cases hvalid : (input.startTimeValid && input.endTimeValid) = true
            · have hv1 : input.startTimeValid = true ∧ input.endTimeValid = true := by
                simpa using hvalid
              simp only [hvalid, Bool.not_true, Bool.false_eq_true, if_false] at hok
              refine ⟨hv1.1, hv1.2, et0, ?_⟩
              exact (by simpa using hok : _ = slots).symm
            · rw [Bool.not_eq_true] at hvalid
              simp [hvalid] at hok


/-- A database with one event type (id 5) and no users. -/
def oneEventDb : Db :=
  { findEventType := fun i => if i = 5 then some sampleEvent else none
    findUsersByUsernames := fun _ => []
    defaultEvent := fun _ => sampleEvent }

/-- A dynamic-booking request (no event-type id) for a user that does not
exist. -/
def ghostDynInput : ScheduleInput :=
  { startTime := 0, endTime := 60, startTimeValid := true, endTimeValid := true,
    eventTypeId := none, eventTypeSlug := "30", usernameList := some ["ghost"],
    duration := none }

/-- Counterexample for C7: for a dynamic booking whose requested users are
all absent, `getScheduleE` does not fail with `NOT_FOUND` — it succeeds with
an empty slot set (the claim's "iff" requires a `NOT_FOUND` failure here). -/
theorem getScheduleE_dynamic_counterexample :
    oneEventDb.findUsersByUsernames ["ghost"] = [] ∧
    ghostDynInput.eventTypeId = none ∧
    getScheduleE oneEventDb ghostDynInput (specGen 0) freeUaO 0 = Except.ok [] ∧
    Except.ok ([] : List (Nat × List SlotDesc)) ≠ Except.error ErrCode.NOT_FOUND :=
  ⟨rfl, rfl, rfl, fun h => Except.noConfusion h⟩

/-- A request for event type 5 with an invalid start time. -/
def badTimeInput : ScheduleInput :=
  { startTime := 0, endTime := 60, startTimeValid := false, endTimeValid := true,
    eventTypeId := some 5, eventTypeSlug := "sample", usernameList := none,
    duration := none }

/-- Witness for C7 amended: a resolved event type with a malformed time
range yields `BAD_REQUEST`. -/
theorem getScheduleE_notFound_iff_witness :
    getScheduleE oneEventDb badTimeInput (specGen 0) freeUaO 0 =
      Except.error ErrCode.BAD_REQUEST :=
  (getScheduleE_notFound_iff oneEventDb badTimeInput (specGen 0) freeUaO 0).2.1
    5 sampleEvent rfl (by decide) rfl

end CalSchedule
